import Mathlib

/-!
Shallow embedding of the `menus` fragment of a CMS navigation library
(`menus/base.py` and `menus/utils.py`), together with proofs of the
specification claims about it.

Conventions of the embedding:
* Python values that may be absent (`None`) become `Option`.
* Python exceptions become `Except` results; a `try/except` becomes a
  `match` on the `Except` value.
* Python object attribute bags (dicts) become association lists with
  first-match lookup (dict keys are unique, so first-match agrees).
* The mutable `_app_path` cache on `DefaultLanguageChanger` becomes
  explicit state passing: methods return the updated object.
* Host-framework functions that are not part of this repository
  (`page.get_absolute_url`, `reverse`, `hide_untranslated`,
  `get_language_from_request`, the URL `resolve` outcome) are fields of
  explicit environment/request records, so theorems quantify over every
  behaviour the host framework may exhibit.
-/

/-- Values stored in a node's open-ended attribute bag (`attr`).  The
constructors cover the representative Python value kinds, including the
falsy ones (empty string, zero, false). -/
inductive AttrValue where
  | str (s : String)
  | int (n : Int)
  | bool (b : Bool)
deriving DecidableEq

/-- One entry in a navigation tree (`menus/base.py`, class
`NavigationNode`).  The constructor carries the `__init__` fields; the
`children` list is the one populated by the external linker (the
Python `__init__` starts it empty), embedded here as part of the
inductive tree so that the traversals below are over acyclic data, as
the source requires of its caller. -/
inductive NavigationNode where
  | mk (title : String) (url : String) (id : String)
       (parent_id : Option String) (parent_namespace : Option String)
       (attr : List (String × AttrValue)) (visible : Bool)
       (children : List NavigationNode)

/-- Accessor for the `title` field. -/
def NavigationNode.title : NavigationNode → String
  | .mk t _ _ _ _ _ _ _ => t

/-- Accessor for the `url` field. -/
def NavigationNode.url : NavigationNode → String
  | .mk _ u _ _ _ _ _ _ => u

/-- Accessor for the `attr` field. -/
def NavigationNode.attr : NavigationNode → List (String × AttrValue)
  | .mk _ _ _ _ _ a _ _ => a

/-- Accessor for the `children` field. -/
def NavigationNode.children : NavigationNode → List NavigationNode
  | .mk _ _ _ _ _ _ _ cs => cs

/-- Embedding of `NavigationNode.get_menu_title`: returns the title. -/
def NavigationNode.get_menu_title (n : NavigationNode) : String :=
  n.title

/-- Embedding of `NavigationNode.get_absolute_url`: returns the url. -/
def NavigationNode.get_absolute_url (n : NavigationNode) : String :=
  n.url

/-- Python `dict.get(name, None)` over the attribute bag, embedded as
first-match association-list lookup. -/
def dict_get (d : List (String × AttrValue)) (name : String) : Option AttrValue :=
  match d with
  | [] => none
  | (k, v) :: rest => if k = name then some v else dict_get rest name

/-- Embedding of `NavigationNode.get_attribute`:
`return self.attr.get(name, None)`. -/
def NavigationNode.get_attribute (n : NavigationNode) (name : String) : Option AttrValue :=
  dict_get n.attr name

mutual

/-- Embedding of `NavigationNode.get_descendants`:
`nodes = []; for node in self.children: nodes.append(node);
nodes.extend(node.get_descendants()); return nodes`. -/
def NavigationNode.get_descendants : NavigationNode → List NavigationNode
  | .mk _ _ _ _ _ _ _ cs => descendants_of_forest cs

/-- The loop body of `get_descendants`, over the list of children. -/
def descendants_of_forest : List NavigationNode → List NavigationNode
  | [] => []
  | c :: rest => c :: (c.get_descendants ++ descendants_of_forest rest)

end

mutual

/-- Specification-side definition (from the spec's words, for
comparison with `get_descendants`): the nodes of the subtree rooted at
a node, in depth-first (preorder) order, including the node itself. -/
def subtreePreorder : NavigationNode → List NavigationNode
  | .mk t u i pid pns a v cs => .mk t u i pid pns a v cs :: forestPreorder cs

/-- Preorder of a forest, concatenating the preorders of its trees. -/
def forestPreorder : List NavigationNode → List NavigationNode
  | [] => []
  | c :: rest => subtreePreorder c ++ forestPreorder rest

end

mutual

/-- Specification-side definition: total number of nodes of the
subtree rooted at a node, the node itself included. -/
def totalNodeCount : NavigationNode → Nat
  | .mk _ _ _ _ _ _ _ cs => 1 + forestNodeCount cs

/-- Total number of nodes of a forest. -/
def forestNodeCount : List NavigationNode → Nat
  | [] => 0
  | c :: rest => totalNodeCount c + forestNodeCount rest

end

/-- A node viewed through its `parent` back-reference chain
(`menus/base.py`, the `parent` attribute used by `get_ancestors`).
The inductive formation makes the chain acyclic, which is exactly the
caller-supplied guarantee the source asks for. -/
inductive PNode where
  | mk (id : String) (parent : Option PNode)

/-- Accessor for the `parent` back-reference. -/
def PNode.parent : PNode → Option PNode
  | .mk _ p => p

/-- Embedding of `NavigationNode.get_ancestors`:
`parent = self; nodes = []; while parent.parent is not None:
parent = parent.parent; nodes.append(parent); return nodes`. -/
def PNode.get_ancestors : PNode → List PNode
  | .mk _ none => []
  | .mk _ (some p) => p :: p.get_ancestors

/-- The exception kinds handled by `DefaultLanguageChanger.get_page_path`
(`menus/utils.py`): `Title.DoesNotExist` (missing translation) and
`NoReverseMatch` (no reverse URL match). -/
inductive PageUrlError where
  | titleDoesNotExist
  | noReverseMatch
deriving DecidableEq

/-- Settings flags consumed by the language changer
(`django.conf.settings`): `USE_I18N` and `LANGUAGE_CODE`. -/
structure Settings where
  USE_I18N : Bool
  LANGUAGE_CODE : String

/-- The host framework's page model (spec section 6): it exposes
`get_absolute_url(language, fallback)`, which either returns a URL or
raises one of the failure signals.  Calls in the source always occur
under `force_language(language)` with the same language, so the forced
language is not a separate argument. -/
structure Page where
  get_absolute_url : String → Bool → Except PageUrlError String

/-- The object currently edited in the toolbar (`request.toolbar.obj`).
Its `get_absolute_url()` runs under `force_language(lang)`; the result
depends on that forced language, and `none` stands for any raised
exception (the call site catches everything). -/
structure ToolbarObj where
  get_absolute_url : String → Option String

/-- The outcome of `resolve(request.path_info)`: the matched view's
`url_name`, `namespace` (empty string when there is none, as in the
framework's `ResolverMatch`), positional `args`, keyword `kwargs` and
`app_name`. -/
structure ResolvedView where
  url_name : String
  «namespace» : String
  args : List String
  kwargs : List (String × String)
  app_name : String

/-- The request object, carrying what `menus/utils.py` reads from it:
`path_info`; the optional `current_page`; the language that
`get_language_from_request` determines for it; the optional
`toolbar.obj` (absent when there is no toolbar attribute or the
toolbar has no object); and the outcome of `resolve(path_info)`
(`none` when `resolve` raises, matching the bare `except`). -/
structure Request where
  path_info : String
  current_page : Option Page
  language : String
  toolbar_obj : Option ToolbarObj
  resolved : Option ResolvedView

/-- Modelled from the spec: `get_language_from_request` (a host
`cms.utils` helper not in this repository) returns the language
determined for the request; embedded as the request's `language`
field. -/
def get_language_from_request (request : Request) : String :=
  request.language

/-- The host framework environment: settings, the `hide_untranslated`
policy (a `cms.utils.i18n` helper not in this repository, modelled as
an arbitrary per-language predicate), and the URL resolver's `reverse`
(forced language, view name, args, kwargs, current_app; `none` stands
for `NoReverseMatch`). -/
structure Env where
  settings : Settings
  hide_untranslated : String → Bool
  reverse : String → String → List String → List (String × String) → String → Option String

/-- Embedding of the `DefaultLanguageChanger` object state: the request
it was constructed with and the `_app_path` memoization cache. -/
structure DefaultLanguageChanger where
  request : Request
  app_path_cache : Option String

/-- Embedding of `DefaultLanguageChanger.__init__`: stores the request
and sets `_app_path` to `None`. -/
def DefaultLanguageChanger.init (request : Request) : DefaultLanguageChanger :=
  { request := request, app_path_cache := none }

/-- Embedding of `DefaultLanguageChanger.get_page_path(lang)`.  When a
current page exists, the exact translation is tried first
(`fallback=False`); `Title.DoesNotExist` and `NoReverseMatch` from it
are caught, and the handler returns the language root when
`hide_untranslated(lang) and settings.USE_I18N`, else the
`fallback=True` URL (whose own failures are not caught).  With no
current page, the language root (under i18n) or `/` is returned. -/
def DefaultLanguageChanger.get_page_path (env : Env) (self : DefaultLanguageChanger)
    (lang : String) : Except PageUrlError String :=
  match self.request.current_page with
  | some page =>
    match page.get_absolute_url lang false with
    | .ok url => .ok url
    | .error _ =>
      if env.hide_untranslated lang && env.settings.USE_I18N then
        .ok ("/" ++ lang ++ "/")
      else
        page.get_absolute_url lang true
  | none =>
    if env.settings.USE_I18N then .ok ("/" ++ lang ++ "/") else .ok "/"

/-- The language code the `app_path` property computes:
`get_language_from_request(request)` under `USE_I18N`, else
`settings.LANGUAGE_CODE`. -/
def appPathLanguageCode (env : Env) (request : Request) : String :=
  if env.settings.USE_I18N then get_language_from_request request
  else env.settings.LANGUAGE_CODE

/-- Embedding of the `DefaultLanguageChanger.app_path` property.  A
cached `_app_path` is returned as is.  Otherwise `_app_path` is first
set to `request.path_info`; then, when `get_page_path(language_code)`
returns a non-empty path, `_app_path` becomes the cached value with
`len(page_path)` characters dropped from the front (the Python body
re-reads the property, which at that point yields the cached
`path_info`).  An exception from `get_page_path` propagates, leaving
the cache set to `path_info`. -/
def DefaultLanguageChanger.app_path (env : Env) (self : DefaultLanguageChanger) :
    DefaultLanguageChanger × Except PageUrlError String :=
  match self.app_path_cache with
  | some v => (self, .ok v)
  | none =>
    let path_info := self.request.path_info
    let self1 : DefaultLanguageChanger := { self with app_path_cache := some path_info }
    let language_code := appPathLanguageCode env self.request
    match self1.get_page_path env language_code with
    | .error e => (self1, .error e)
    | .ok page_path =>
      if page_path ≠ "" then
        let v := path_info.drop page_path.length
        ({ self1 with app_path_cache := some v }, .ok v)
      else
        (self1, .ok path_info)

/-- The URL-resolution strategies `DefaultLanguageChanger.__call__`
attempts, recorded at exactly the source's call sites: the toolbar
object's `get_absolute_url()` under the forced target language, and
`reverse(view_name, args, kwargs, current_app)` under the forced
target language. -/
inductive LCEvent where
  | toolbarUrlAttempt (lang : String)
  | reverseAttempt (view_name : String) (args : List String)
      (kwargs : List (String × String)) (app_name : String) (lang : String)
deriving DecidableEq

/-- The final line of `__call__`:
`return '%s%s' % (self.get_page_path(lang), self.app_path)`, with
Python's left-to-right tuple evaluation (`get_page_path` first, then
the `app_path` property) and exception propagation from either. -/
def DefaultLanguageChanger.pagePathFallback (env : Env) (self : DefaultLanguageChanger)
    (lang : String) (events : List LCEvent) :
    DefaultLanguageChanger × List LCEvent × Except PageUrlError String :=
  match self.get_page_path env lang with
  | .error e => (self, events, .error e)
  | .ok page_path =>
    match self.app_path env with
    | (self1, .error e) => (self1, events, .error e)
    | (self1, .ok ap) => (self1, events, .ok (page_path ++ ap))

/-- The `view_name` local variable of `__call__`: the matched view's
`url_name`, prefixed with `view.namespace` and a colon when the
namespace is set (non-empty). -/
def qualifiedViewName (view : ResolvedView) : String :=
  if view.«namespace» ≠ "" then view.«namespace» ++ ":" ++ view.url_name
  else view.url_name

/-- Embedding of `DefaultLanguageChanger.__call__(lang)`.  The branch
structure of the source: when `request.toolbar.obj` is set, its
`get_absolute_url()` is tried under the forced target language, with
every exception suppressed; otherwise (`elif`) when `resolve` produced
a view whose `url_name` is not one of the two reserved page-rendering
names, the (namespace-qualified) view name is reversed under the
forced target language, with `NoReverseMatch` suppressed; any
remaining case falls through to `get_page_path(lang) + app_path`. -/
def DefaultLanguageChanger.call (env : Env) (self : DefaultLanguageChanger)
    (lang : String) :
    DefaultLanguageChanger × List LCEvent × Except PageUrlError String :=
  match self.request.toolbar_obj with
  | some obj =>
    match obj.get_absolute_url lang with
    | some url => (self, [.toolbarUrlAttempt lang], .ok url)
    | none => self.pagePathFallback env lang [.toolbarUrlAttempt lang]
  | none =>
    match self.request.resolved with
    | some view =>
      if view.url_name ≠ "pages-details-by-slug" ∧ view.url_name ≠ "pages-root" then
        match env.reverse lang (qualifiedViewName view) view.args view.kwargs
            view.app_name with
        | some url =>
          (self, [.reverseAttempt (qualifiedViewName view) view.args view.kwargs
                    view.app_name lang],
           .ok url)
        | none =>
          self.pagePathFallback env lang
            [.reverseAttempt (qualifiedViewName view) view.args view.kwargs
               view.app_name lang]
      else
        self.pagePathFallback env lang []
    | none => self.pagePathFallback env lang []

/-- Error signal of the abstract `Menu.get_nodes`
(`NotImplementedError`). -/
inductive MenuError where
  | notImplemented
deriving DecidableEq

/-- Embedding of the base `Menu` class (`menus/base.py`): its only
state is the `namespace` identifier set by `__init__`. -/
structure Menu where
  «namespace» : Option String

/-- Embedding of `Menu.__init__`: when the class-level `namespace` is
unset (falsy), it becomes the class name. -/
def Menu.init (class_name : String) (ns : Option String) : Menu :=
  match ns with
  | some s => if s ≠ "" then { «namespace» := some s } else { «namespace» := some class_name }
  | none => { «namespace» := some class_name }

/-- Embedding of the base `Menu.get_nodes(request)`:
`raise NotImplementedError`. -/
def Menu.get_nodes (_self : Menu) (_request : Request) :
    Except MenuError (List NavigationNode) :=
  .error .notImplemented

/-- Embedding of the base `Modifier` class: stateless. -/
structure Modifier where

/-- Embedding of the base `Modifier.modify(request, nodes, namespace,
root_id, post_cut, breadcrumb)`: the body is `pass`, so the nodes list
comes back untouched and no replacement list (`None`) is produced. -/
def Modifier.modify (_self : Modifier) (_request : Request)
    (nodes : List NavigationNode) (_namespace : Option String)
    (_root_id : Option String) (_post_cut : Bool) (_breadcrumb : Bool) :
    List NavigationNode × Option (List NavigationNode) :=
  (nodes, none)

theorem dict_get_eq_none_of_not_mem (d : List (String × AttrValue)) (name : String)
    (h : ∀ kv ∈ d, kv.1 ≠ name) : dict_get d name = none := by
  induction d with
  | nil => rfl
  | cons kv rest ih =>
    obtain ⟨k, v⟩ := kv
    rw [dict_get]
    rw [if_neg (h (k, v) (List.mem_cons_self _ _))]
    exact ih fun kv hkv => h kv (List.mem_cons_of_mem _ hkv)

theorem dict_get_eq_some_of_mem (d : List (String × AttrValue)) (name : String)
    (v : AttrValue) (hnd : (d.map Prod.fst).Nodup) (h : (name, v) ∈ d) :
    dict_get d name = some v := by
  induction d with
  | nil => cases h
  | cons kv rest ih =>
    obtain ⟨k, w⟩ := kv
    rw [List.map_cons, List.nodup_cons] at hnd
    rw [dict_get]
    rcases List.mem_cons.mp h with heq | hmem
    · obtain ⟨rfl, rfl⟩ := Prod.mk.injEq .. ▸ heq
      rw [if_pos rfl]
    · have hk : k ≠ name := by
        intro hk
        exact hnd.1 (hk ▸ List.mem_map.mpr ⟨(name, v), hmem, rfl⟩)
      rw [if_neg hk]
      exact ih hnd.2 hmem

/-- C8: for every `NavigationNode` and key name, `get_attribute(name)`
returns `none` when the key is absent from the node's attribute bag,
and returns the stored value otherwise (the bag's keys being unique,
as for a Python dict), including when the stored value is falsy. -/
theorem NavigationNode.get_attribute_spec (n : NavigationNode) (name : String) :
    ((∀ kv ∈ n.attr, kv.1 ≠ name) → n.get_attribute name = none) ∧
    (∀ v : AttrValue, (n.attr.map Prod.fst).Nodup → (name, v) ∈ n.attr →
      n.get_attribute name = some v) :=
  ⟨fun h => dict_get_eq_none_of_not_mem n.attr name h,
   fun v hnd hv => dict_get_eq_some_of_mem n.attr name v hnd hv⟩

/-- Witness for C8 at a concrete node whose bag stores the falsy
values `""` and `0`: both come back as stored, and an absent key gives
`none`. -/
theorem NavigationNode.get_attribute_spec_witness :
    (NavigationNode.mk "t" "/u/" "n1" none none
        [("empty", .str ""), ("zero", .int 0)] true []).get_attribute "empty"
      = some (.str "") ∧
    (NavigationNode.mk "t" "/u/" "n1" none none
        [("empty", .str ""), ("zero", .int 0)] true []).get_attribute "zero"
      = some (.int 0) ∧
    (NavigationNode.mk "t" "/u/" "n1" none none
        [("empty", .str ""), ("zero", .int 0)] true []).get_attribute "soft_root"
      = none :=
  ⟨(NavigationNode.get_attribute_spec _ "empty").2 (.str "") (by decide) (by simp [NavigationNode.attr]),
   (NavigationNode.get_attribute_spec _ "zero").2 (.int 0) (by decide) (by simp [NavigationNode.attr]),
   (NavigationNode.get_attribute_spec _ "soft_root").1 (by simp [NavigationNode.attr])⟩

/-- C7: calling `get_nodes` on a direct instance of the base `Menu`
class raises `NotImplementedError`, for every request argument. -/
theorem Menu.get_nodes_not_implemented (m : Menu) (request : Request) :
    m.get_nodes request = .error .notImplemented :=
  rfl

/-- C9: `modify` on a default `Modifier` instance is a no-op: for all
arguments it leaves the nodes list exactly as given and produces no
replacement list. -/
theorem Modifier.modify_noop (m : Modifier) (request : Request)
    (nodes : List NavigationNode) (ns root_id : Option String)
    (post_cut breadcrumb : Bool) :
    m.modify request nodes ns root_id post_cut breadcrumb = (nodes, none) :=
  rfl

theorem get_descendants_eq_forest (n : NavigationNode) :
    n.get_descendants = descendants_of_forest n.children := by
  cases n
  rfl

mutual

theorem subtreePreorder_eq_cons_descendants :
    ∀ n : NavigationNode, subtreePreorder n = n :: n.get_descendants
  | .mk t u i pid pns a v cs => by
    rw [subtreePreorder, NavigationNode.get_descendants,
        descendants_of_forest_eq_forestPreorder cs]

theorem descendants_of_forest_eq_forestPreorder :
    ∀ cs : List NavigationNode, descendants_of_forest cs = forestPreorder cs
  | [] => rfl
  | c :: rest => by
    rw [descendants_of_forest, forestPreorder, subtreePreorder_eq_cons_descendants c,
        descendants_of_forest_eq_forestPreorder rest, List.cons_append]

end

mutual

theorem length_subtreePreorder :
    ∀ n : NavigationNode, (subtreePreorder n).length = totalNodeCount n
  | .mk t u i pid pns a v cs => by
    rw [subtreePreorder, totalNodeCount, List.length_cons,
        length_forestPreorder cs]
    omega

theorem length_forestPreorder :
    ∀ cs : List NavigationNode, (forestPreorder cs).length = forestNodeCount cs
  | [] => rfl
  | c :: rest => by
    rw [forestPreorder, forestNodeCount, List.length_append,
        length_subtreePreorder c, length_forestPreorder rest]

end

theorem descendants_of_forest_of_leaves (cs : List NavigationNode)
    (h : ∀ c ∈ cs, c.children = []) : descendants_of_forest cs = cs := by
  induction cs with
  | nil => rfl
  | cons c rest ih =>
    rw [descendants_of_forest, get_descendants_eq_forest,
        h c (List.mem_cons_self _ _)]
    rw [descendants_of_forest]
    rw [ih fun c hc => h c (List.mem_cons_of_mem _ hc)]
    rfl

/-- C3: `get_descendants()` returns exactly the nodes of the subtree
rooted at the node, in depth-first (preorder) order, excluding the node
itself — the subtree preorder is the node followed by its descendants —
so its length is the total node count of the subtree minus one; and on
a root all of whose children are leaves (every other node having the
root as its single common parent), it returns exactly the children. -/
theorem NavigationNode.get_descendants_spec (n : NavigationNode) :
    subtreePreorder n = n :: n.get_descendants ∧
    n.get_descendants.length = totalNodeCount n - 1 ∧
    ((∀ c ∈ n.children, c.children = []) → n.get_descendants = n.children) := by
  refine ⟨subtreePreorder_eq_cons_descendants n, ?_, ?_⟩
  · have h := length_subtreePreorder n
    rw [subtreePreorder_eq_cons_descendants n, List.length_cons] at h
    omega
  · intro h
    rw [get_descendants_eq_forest, descendants_of_forest_of_leaves n.children h]

/-- Witness for C3 on a concrete flat tree: a root with three leaf
children, whose descendants are exactly the three other nodes. -/
theorem NavigationNode.get_descendants_spec_witness :
    (NavigationNode.mk "R" "/" "r" none none [] true
        [NavigationNode.mk "A" "/a/" "a" (some "r") none [] true [],
         NavigationNode.mk "B" "/b/" "b" (some "r") none [] true [],
         NavigationNode.mk "C" "/c/" "c" (some "r") none [] true []]).get_descendants
      = [NavigationNode.mk "A" "/a/" "a" (some "r") none [] true [],
         NavigationNode.mk "B" "/b/" "b" (some "r") none [] true [],
         NavigationNode.mk "C" "/c/" "c" (some "r") none [] true []] :=
  (NavigationNode.get_descendants_spec _).2.2 (by
    intro c hc
    rcases List.mem_cons.mp hc with rfl | hc
    · rfl
    rcases List.mem_cons.mp hc with rfl | hc
    · rfl
    rcases List.mem_cons.mp hc with rfl | hc
    · rfl
    cases hc)

theorem sizeOf_lt_of_mem_get_ancestors :
    ∀ n : PNode, ∀ m ∈ n.get_ancestors, sizeOf m < sizeOf n
  | .mk i none => by
    intro m hm
    rw [PNode.get_ancestors] at hm
    cases hm
  | .mk i (some p) => by
    intro m hm
    rw [PNode.get_ancestors] at hm
    rcases List.mem_cons.mp hm with rfl | hm
    · simp
      omega
    · have h := sizeOf_lt_of_mem_get_ancestors p m hm
      simp
      omega

theorem get_ancestors_getLast_is_root :
    ∀ n : PNode, ∀ last : PNode,
      n.get_ancestors.getLast? = some last → last.parent = none
  | .mk i none => by
    intro last h
    rw [PNode.get_ancestors] at h
    cases h
  | .mk i (some p) => by
    intro last h
    rw [PNode.get_ancestors] at h
    cases hp : p.get_ancestors with
    | nil =>
      rw [hp] at h
      rw [List.getLast?_singleton] at h
      cases h
      cases p with
      | mk j op =>
        cases op with
        | none => rfl
        | some q => rw [PNode.get_ancestors] at hp; cases hp
    | cons a as =>
      rw [hp, List.getLast?_cons_cons] at h
      exact get_ancestors_getLast_is_root p last (hp ▸ h)

/-- C4: `get_ancestors()` returns the parent chain nearest-first and
excluding the node itself: on a node with `parent` unset it returns the
empty list; on a node with a parent it returns the parent followed by
the parent's own ancestors; the node itself never appears in the
result; and the last entry of a non-empty result is the first node
whose `parent` is unset (the root, where the walk terminates). -/
theorem PNode.get_ancestors_spec (n : PNode) :
    (n.parent = none → n.get_ancestors = []) ∧
    (∀ p : PNode, n.parent = some p → n.get_ancestors = p :: p.get_ancestors) ∧
    n ∉ n.get_ancestors ∧
    (∀ last : PNode, n.get_ancestors.getLast? = some last → last.parent = none) := by
  refine ⟨?_, ?_, ?_, get_ancestors_getLast_is_root n⟩
  · intro h
    cases n with
    | mk i op => cases op with
      | none => rfl
      | some p => rw [PNode.parent] at h; cases h
  · intro p h
    cases n with
    | mk i op =>
      rw [PNode.parent] at h
      cases h
      rfl
  · intro hmem
    exact absurd (sizeOf_lt_of_mem_get_ancestors n n hmem) (lt_irrefl _)

/-- Witness for C4 on a concrete three-node chain: the grandchild's
ancestors are `[parent, root]`, and the root's ancestors are empty. -/
theorem PNode.get_ancestors_spec_witness :
    (PNode.mk "c" (some (PNode.mk "p" (some (PNode.mk "r" none))))).get_ancestors
        = PNode.mk "p" (some (PNode.mk "r" none))
            :: (PNode.mk "p" (some (PNode.mk "r" none))).get_ancestors ∧
    (PNode.mk "r" none).get_ancestors = [] :=
  ⟨(PNode.get_ancestors_spec _).2.1 (PNode.mk "p" (some (PNode.mk "r" none))) rfl,
   (PNode.get_ancestors_spec (PNode.mk "r" none)).1 rfl⟩

/-- A page whose exact translations are all missing but whose
fallback-enabled URL exists (used for the C1 counterexample). -/
def pageC1 : Page :=
  ⟨fun _ fallback =>
    if fallback then .ok "/en/c1-page/" else .error .titleDoesNotExist⟩

/-- A request carrying `pageC1` (used for the C1 counterexample). -/
def requestC1 : Request :=
  ⟨"/en/c1-page/", some pageC1, "en", none, none⟩

/-- An environment with `USE_I18N` disabled but `hide_untranslated`
active for every language (used for the C1 counterexample). -/
def envC1 : Env :=
  ⟨⟨false, "en"⟩, fun _ => true, fun _ _ _ _ _ => none⟩

/-- Counterexample to C1 as stated: the exact translation for `"de"`
raises the missing-title signal and the hide-untranslated policy is
active for `"de"`, yet `get_page_path` returns the fallback-language
URL, not the language root `"/de/"` — because the source additionally
requires `settings.USE_I18N`, which is disabled here. -/
theorem get_page_path_hide_untranslated_counterexample :
    pageC1.get_absolute_url "de" false = .error .titleDoesNotExist ∧
    envC1.hide_untranslated "de" = true ∧
    (DefaultLanguageChanger.init requestC1).get_page_path envC1 "de"
      = .ok "/en/c1-page/" ∧
    (DefaultLanguageChanger.init requestC1).get_page_path envC1 "de"
      ≠ .ok "/de/" := by
  refine ⟨rfl, rfl, rfl, fun h => ?_⟩
  rw [show (DefaultLanguageChanger.init requestC1).get_page_path envC1 "de"
        = .ok "/en/c1-page/" from rfl] at h
  have := Except.ok.inj h
  simp at this

/-- C1 (amended): when the request's current page has a URL in the
target language, `get_page_path(lang)` returns that translated URL;
when the exact translation raises the missing-title signal, the
hide-untranslated policy is active for that language AND the i18n
setting (`USE_I18N`) is enabled, it returns the language root
`/<lang>/` instead. -/
theorem DefaultLanguageChanger.get_page_path_spec (env : Env)
    (self : DefaultLanguageChanger) (lang : String) (page : Page)
    (hp : self.request.current_page = some page) :
    (∀ url : String, page.get_absolute_url lang false = .ok url →
      self.get_page_path env lang = .ok url) ∧
    (page.get_absolute_url lang false = .error .titleDoesNotExist →
      env.hide_untranslated lang = true → env.settings.USE_I18N = true →
      self.get_page_path env lang = .ok ("/" ++ lang ++ "/")) := by
  constructor
  · intro url hurl
    simp only [DefaultLanguageChanger.get_page_path, hp, hurl]
  · intro herr hhide hi18n
    simp only [DefaultLanguageChanger.get_page_path, hp, herr, hhide, hi18n,
      Bool.and_self, if_true]

/-- A page translated into every language (used for the C1 witness). -/
def pageC1w : Page :=
  ⟨fun lang fallback =>
    if fallback then .error .noReverseMatch else .ok ("/" ++ lang ++ "/c1w/")⟩

/-- A page with no exact translations at all (used for the C1
witness of the hide-untranslated branch). -/
def pageC1h : Page :=
  ⟨fun _ _ => .error .titleDoesNotExist⟩

/-- An i18n-enabled environment whose hide-untranslated policy is
active for every language (used for the C1 witness). -/
def envC1w : Env :=
  ⟨⟨true, "en"⟩, fun _ => true, fun _ _ _ _ _ => none⟩

/-- Witness for amended C1 at concrete inputs: a translated page's URL
comes back as is, and a page missing the exact `"de"` translation under
the active hide-untranslated policy with i18n enabled yields
`"/de/"`. -/
theorem DefaultLanguageChanger.get_page_path_spec_witness :
    (DefaultLanguageChanger.init ⟨"/en/c1w/", some pageC1w, "en", none, none⟩).get_page_path
        envC1w "de" = .ok "/de/c1w/" ∧
    (DefaultLanguageChanger.init ⟨"/en/c1h/", some pageC1h, "en", none, none⟩).get_page_path
        envC1w "de" = .ok ("/" ++ "de" ++ "/") :=
  ⟨(DefaultLanguageChanger.get_page_path_spec envC1w _ "de" pageC1w rfl).1
      "/de/c1w/" rfl,
   (DefaultLanguageChanger.get_page_path_spec envC1w _ "de" pageC1h rfl).2
      rfl rfl rfl⟩

theorem DefaultLanguageChanger.get_page_path_ok (env : Env)
    (self : DefaultLanguageChanger) (lang : String)
    (h : ∀ page : Page, self.request.current_page = some page →
      ∃ url, page.get_absolute_url lang true = .ok url) :
    ∃ url, self.get_page_path env lang = .ok url := by
  unfold DefaultLanguageChanger.get_page_path
  split
  · rename_i page hpage
    split
    · exact ⟨_, rfl⟩
    · split
      · exact ⟨_, rfl⟩
      · exact h page hpage
  · split
    · exact ⟨_, rfl⟩
    · exact ⟨_, rfl⟩

theorem DefaultLanguageChanger.app_path_ok (env : Env)
    (self : DefaultLanguageChanger)
    (h : ∀ (page : Page) (l : String), self.request.current_page = some page →
      ∃ url, page.get_absolute_url l true = .ok url) :
    ∃ self1 ap, self.app_path env = (self1, .ok ap) := by
  unfold DefaultLanguageChanger.app_path
  split
  · exact ⟨_, _, rfl⟩
  · obtain ⟨pp, hpp⟩ :=
      DefaultLanguageChanger.get_page_path_ok env
        { self with app_path_cache := some self.request.path_info }
        (appPathLanguageCode env self.request)
        (fun page hp => h page _ hp)
    dsimp only
    rw [hpp]
    dsimp only
    split
    · exact ⟨_, _, rfl⟩
    · exact ⟨_, _, rfl⟩

theorem DefaultLanguageChanger.pagePathFallback_ok (env : Env)
    (self : DefaultLanguageChanger) (lang : String) (events : List LCEvent)
    (h : ∀ (page : Page) (l : String), self.request.current_page = some page →
      ∃ url, page.get_absolute_url l true = .ok url) :
    ∃ self1 url, self.pagePathFallback env lang events = (self1, events, .ok url) := by
  unfold DefaultLanguageChanger.pagePathFallback
  obtain ⟨pp, hpp⟩ :=
    DefaultLanguageChanger.get_page_path_ok env self lang (fun page hp => h page lang hp)
  rw [hpp]
  obtain ⟨s1, ap, hap⟩ := DefaultLanguageChanger.app_path_ok env self h
  rw [hap]
  exact ⟨s1, pp ++ ap, rfl⟩

/-- A page none of whose translation lookups succeed, fallback-enabled
ones included (used for the C2 counterexample). -/
def pageC2 : Page :=
  ⟨fun _ _ => .error .titleDoesNotExist⟩

/-- A request carrying `pageC2` (used for the C2 counterexample). -/
def requestC2 : Request :=
  ⟨"/x/", some pageC2, "en", none, none⟩

/-- An environment whose hide-untranslated policy is inactive, so the
handler inside `get_page_path` re-calls the page's fallback-enabled
lookup (used for the C2 counterexample). -/
def envC2 : Env :=
  ⟨⟨true, "en"⟩, fun _ => false, fun _ _ _ _ _ => none⟩

/-- Counterexample to C2 as stated: the missing-title signal raised by
the fallback-enabled `get_absolute_url` call inside the exception
handler of `get_page_path` is not caught anywhere, so the call
propagates it to the caller instead of returning a URL string. -/
theorem DefaultLanguageChanger.call_propagates_counterexample :
    ((DefaultLanguageChanger.init requestC2).call envC2 "de").2.2
      = .error .titleDoesNotExist :=
  rfl

/-- C2 (amended): errors raised by the exact-translation lookup
(`fallback=False`) and by view reversal are caught and treated as "try
the next strategy"; but the fallback-enabled lookup
(`get_absolute_url(language, fallback=True)`) made inside the handler
is unprotected, so its errors propagate.  Provided the current page's
fallback-enabled lookups succeed, the call always returns a URL
string. -/
theorem DefaultLanguageChanger.call_total (env : Env)
    (self : DefaultLanguageChanger) (lang : String)
    (h : ∀ (page : Page) (l : String), self.request.current_page = some page →
      ∃ url, page.get_absolute_url l true = .ok url) :
    ∃ self1 events url, self.call env lang = (self1, events, .ok url) := by
  unfold DefaultLanguageChanger.call
  split
  · split
    · exact ⟨_, _, _, rfl⟩
    · obtain ⟨s1, url, hf⟩ :=
        DefaultLanguageChanger.pagePathFallback_ok env self lang _ h
      exact ⟨s1, _, url, hf⟩
  · split
    · split
      · split
        · exact ⟨_, _, _, rfl⟩
        · obtain ⟨s1, url, hf⟩ :=
            DefaultLanguageChanger.pagePathFallback_ok env self lang _ h
          exact ⟨s1, _, url, hf⟩
      · obtain ⟨s1, url, hf⟩ :=
          DefaultLanguageChanger.pagePathFallback_ok env self lang _ h
        exact ⟨s1, _, url, hf⟩
    · obtain ⟨s1, url, hf⟩ :=
        DefaultLanguageChanger.pagePathFallback_ok env self lang _ h
      exact ⟨s1, _, url, hf⟩

/-- A page whose fallback-enabled lookups all succeed (used for the C2
witness). -/
def pageC2w : Page :=
  ⟨fun l fallback =>
    if fallback then .ok ("/" ++ l ++ "/w/") else .error .titleDoesNotExist⟩

/-- A request carrying `pageC2w` (used for the C2 witness). -/
def requestC2w : Request :=
  ⟨"/en/w/", some pageC2w, "en", none, none⟩

/-- Witness for amended C2 at a concrete input whose fallback-enabled
lookups succeed: the call returns a URL. -/
theorem DefaultLanguageChanger.call_total_witness :
    ∃ self1 events url,
      (DefaultLanguageChanger.init requestC2w).call envC2 "de"
        = (self1, events, .ok url) :=
  DefaultLanguageChanger.call_total envC2 _ "de"
    (fun page l hp => ⟨"/" ++ l ++ "/w/", by cases hp; rfl⟩)

theorem DefaultLanguageChanger.pagePathFallback_events (env : Env)
    (self : DefaultLanguageChanger) (lang : String) (events : List LCEvent) :
    (self.pagePathFallback env lang events).2.1 = events := by
  unfold DefaultLanguageChanger.pagePathFallback
  split
  · rfl
  · split <;> rfl

/-- C5: for a request with no page context (no current page and no
toolbar object) whose path resolved to a view, `__call__` attempts to
reverse the matched view's namespace-qualified name with its args and
kwargs under the target language exactly when the view's `url_name` is
neither `pages-details-by-slug` nor `pages-root`. -/
theorem DefaultLanguageChanger.view_reversal_exactness (env : Env)
    (self : DefaultLanguageChanger) (lang : String) (view : ResolvedView)
    (_hpage : self.request.current_page = none)
    (htoolbar : self.request.toolbar_obj = none)
    (hview : self.request.resolved = some view) :
    (self.call env lang).2.1 =
      if view.url_name ≠ "pages-details-by-slug" ∧ view.url_name ≠ "pages-root" then
        [LCEvent.reverseAttempt (qualifiedViewName view) view.args view.kwargs
           view.app_name lang]
      else [] := by
  unfold DefaultLanguageChanger.call
  rw [htoolbar, hview]
  dsimp only
  split
  · split
    · rfl
    · exact DefaultLanguageChanger.pagePathFallback_events env self lang _
  · exact DefaultLanguageChanger.pagePathFallback_events env self lang _

/-- A request with no page context whose path resolved to a namespaced
view (used for the C5 witness). -/
def requestC5 : Request :=
  ⟨"/shop/product/1/", none, "en", none,
   some ⟨"product-detail", "shop", ["1"], [], "shop"⟩⟩

/-- An environment whose resolver reverses every view name (used for
the C5 witness). -/
def envC5 : Env :=
  ⟨⟨true, "en"⟩, fun _ => false,
   fun l _ _ _ _ => some ("/" ++ l ++ "/shop/product/1/")⟩

/-- Witness for C5 at a concrete input: the one strategy attempted is
reversing `shop:product-detail` with args `["1"]` under `"fr"`. -/
theorem DefaultLanguageChanger.view_reversal_exactness_witness :
    ((DefaultLanguageChanger.init requestC5).call envC5 "fr").2.1
      = [LCEvent.reverseAttempt "shop:product-detail" ["1"] [] "shop" "fr"] :=
  (DefaultLanguageChanger.view_reversal_exactness envC5 _ "fr"
      ⟨"product-detail", "shop", ["1"], [], "shop"⟩ rfl rfl rfl).trans (by decide)

/-- C6: whenever the toolbar and view-reversal strategies produce no
URL — the toolbar object's lookup fails when a toolbar object exists,
and reversing yields nothing when a view was matched without a toolbar
object — `__call__` returns the concatenation of `get_page_path(lang)`
with the residual `app_path`. -/
theorem DefaultLanguageChanger.call_fallback_concatenation (env : Env)
    (self : DefaultLanguageChanger) (lang : String)
    (htool : ∀ obj : ToolbarObj, self.request.toolbar_obj = some obj →
      obj.get_absolute_url lang = none)
    (hrev : ∀ view : ResolvedView, self.request.toolbar_obj = none →
      self.request.resolved = some view →
      env.reverse lang (qualifiedViewName view) view.args view.kwargs
        view.app_name = none)
    (pp ap : String) (self1 : DefaultLanguageChanger)
    (hpp : self.get_page_path env lang = .ok pp)
    (hap : self.app_path env = (self1, .ok ap)) :
    ∃ events, self.call env lang = (self1, events, .ok (pp ++ ap)) := by
  have hfb : ∀ ev : List LCEvent,
      self.pagePathFallback env lang ev = (self1, ev, .ok (pp ++ ap)) := by
    intro ev
    unfold DefaultLanguageChanger.pagePathFallback
    rw [hpp, hap]
  unfold DefaultLanguageChanger.call
  split
  · rename_i obj hobj
    rw [htool obj hobj]
    exact ⟨_, hfb _⟩
  · rename_i hnone
    split
    · rename_i view hv
      split
      · rw [hrev view hnone hv]
        exact ⟨_, hfb _⟩
      · exact ⟨_, hfb _⟩
    · exact ⟨_, hfb _⟩

/-- A request with no page, no toolbar object and no resolved view
(used for the C6 witness). -/
def requestC6 : Request :=
  ⟨"/en/about/", none, "en", none, none⟩

/-- An i18n-enabled environment whose resolver reverses nothing (used
for the C6 witness). -/
def envC6 : Env :=
  ⟨⟨true, "en"⟩, fun _ => true, fun _ _ _ _ _ => none⟩

/-- Witness for C6 at a concrete input: with both strategies producing
nothing, the call returns `get_page_path("de") + app_path`, here
`"/de/" ++ "about/"`. -/
theorem DefaultLanguageChanger.call_fallback_concatenation_witness :
    ∃ events, (DefaultLanguageChanger.init requestC6).call envC6 "de"
      = (⟨requestC6, some "about/"⟩, events, .ok ("/de/" ++ "about/")) :=
  DefaultLanguageChanger.call_fallback_concatenation envC6 _ "de"
    (fun obj hobj => by simp [DefaultLanguageChanger.init, requestC6] at hobj)
    (fun view _ hv => by simp [DefaultLanguageChanger.init, requestC6] at hv)
    "/de/" "about/" ⟨requestC6, some "about/"⟩ rfl rfl

/-- C10: the `app_path` value is memoized.  Whenever an access returns
a value, the returned object's `_app_path` cache holds exactly that
value; a first access (cache unset) computes the value from the
request's `path_info` and the current-language page path, dropping the
page path's length from the front; and every subsequent access — even
on an object whose request has been replaced by an arbitrary other
request — returns the same cached string without recomputation. -/
theorem DefaultLanguageChanger.app_path_memoized (env : Env)
    (self self1 : DefaultLanguageChanger) (v : String)
    (h : self.app_path env = (self1, .ok v)) :
    self1.app_path_cache = some v ∧
    (self.app_path_cache = none →
      ∀ pp : String,
        self.get_page_path env (appPathLanguageCode env self.request) = .ok pp →
        pp ≠ "" → v = self.request.path_info.drop pp.length) ∧
    (∀ request2 : Request,
      DefaultLanguageChanger.app_path env { self1 with request := request2 }
        = ({ self1 with request := request2 }, .ok v)) := by
  unfold DefaultLanguageChanger.app_path at h
  split at h
  · rename_i v0 hv0
    simp only [Prod.mk.injEq, Except.ok.injEq] at h
    obtain ⟨rfl, rfl⟩ := h
    refine ⟨hv0, ?_, ?_⟩
    · intro hnone
      rw [hv0] at hnone
      cases hnone
    · intro request2
      unfold DefaultLanguageChanger.app_path
      rw [show ({ self with request := request2 } : DefaultLanguageChanger).app_path_cache
            = some v0 from hv0]
  · rename_i hnone
    dsimp only at h
    split at h
    · simp at h
    · rename_i page_path heq
      split at h
      · rename_i hne
        simp only [Prod.mk.injEq, Except.ok.injEq] at h
        obtain ⟨rfl, rfl⟩ := h
        refine ⟨rfl, ?_, ?_⟩
        · intro _ pp hpp hppne
          have heq2 : self.get_page_path env (appPathLanguageCode env self.request)
              = Except.ok page_path := heq
          rw [heq2] at hpp
          rw [Except.ok.inj hpp]
        · intro request2
          unfold DefaultLanguageChanger.app_path
          rfl
      · rename_i hne
        simp only [Prod.mk.injEq, Except.ok.injEq] at h
        obtain ⟨rfl, rfl⟩ := h
        refine ⟨rfl, ?_, ?_⟩
        · intro _ pp hpp hppne
          have heq2 : self.get_page_path env (appPathLanguageCode env self.request)
              = Except.ok page_path := heq
          rw [heq2] at hpp
          rw [← Except.ok.inj hpp] at hppne
          exact absurd hppne hne
        · intro request2
          unfold DefaultLanguageChanger.app_path
          rfl

/-- A request for the C10 witness: `path_info` `/en/news/` with no
page, so the current-language page path is `/en/`. -/
def requestC10 : Request :=
  ⟨"/en/news/", none, "en", none, none⟩

/-- A second, different request, showing that a later access ignores a
replaced request object (used for the C10 witness). -/
def requestC10b : Request :=
  ⟨"/fr/autre/", none, "fr", none, none⟩

/-- An i18n-enabled environment for the C10 witness. -/
def envC10 : Env :=
  ⟨⟨true, "en"⟩, fun _ => true, fun _ _ _ _ _ => none⟩

/-- Witness for C10: after a first access computed `"news/"`, a second
access on the object with its request replaced still returns
`"news/"` straight from the cache. -/
theorem DefaultLanguageChanger.app_path_memoized_witness :
    DefaultLanguageChanger.app_path envC10 ⟨requestC10b, some "news/"⟩
      = (⟨requestC10b, some "news/"⟩, .ok "news/") :=
  (DefaultLanguageChanger.app_path_memoized envC10
      (DefaultLanguageChanger.init requestC10) ⟨requestC10, some "news/"⟩ "news/"
      rfl).2.2 requestC10b
